import Mathlib

/-!
Verification development for the dc-south-east-study repository.

The embedding below translates the data-integration core of the repository:
the identifier normalizer and left-join engine of `src/clean_data.py`
(`merge_data_with_shapefile`), the batch collector of `src/get_study_data.py`
(`fetch_multiple_block_groups`, `get_ejscreen_data`), the per-area fetcher of
`src/get_data_from_api.py` (`fetch_ejscreen_data`, `extract_ejscreen_fields`),
and the CSV filtering utility of `src/start.py` (`filter_dc_data`).

External I/O (HTTP, file system, pandas/geopandas) is modelled by explicit
inputs and an effect trace: file contents become lists of rows, the HTTP layer
becomes an `Except`-valued oracle, and Python's dynamic `dict.get` semantics
become `Except`-valued accessors that fault on non-dict receivers exactly
where Python would raise.
-/

namespace DCStudy

/-! ## Identifier normalizer (src/clean_data.py line 56)

Python: `data_df[col].astype(str).str.split(".").str[0]`.
`pySplit` is Python's `str.split(sep)` on a character list; `normalize`
takes the head of the split, i.e. the text before the first separator. -/

def pySplit (sep : Char) : List Char → List (List Char)
  | [] => [[]]
  | c :: cs =>
    match pySplit sep cs with
    | [] => [[]]
    | r :: rs => if c = sep then [] :: r :: rs else (c :: r) :: rs

def normalize (s : String) : String :=
  String.mk ((pySplit '.' s.data).headD [])

/-! ## Data model for the join (src/clean_data.py)

A `BoundaryRow` is one shapefile feature: its `GEOID` attribute plus the rest
of its attribute row (geometry included), abstracted as `battrs`. A `TableRow`
is one CSV row: its `ID` column plus the remaining columns, abstracted as
`tattrs`. A `MergedRow` is one output row of the pandas left merge: the
boundary columns always present, the table-side `ID` and attribute columns
null (`none`) when unmatched. -/

structure BoundaryRow (β : Type) where
  geoid : String
  battrs : β
deriving DecidableEq, Repr

structure TableRow (α : Type) where
  id_col : String
  tattrs : α
deriving DecidableEq, Repr

structure MergedRow (β α : Type) where
  geoid : String
  battrs : β
  id_val : Option String
  tattrs : Option α
deriving DecidableEq, Repr

/-- Pandas `left.merge(right, left_on=geoid, right_on=id, how="left")`:
every left row appears in left order; a left row with no key match yields a
single row with nulls on the right side, and a left row with matches yields
one row per matching right row, in right order. -/
def leftMerge {β α : Type} : List (BoundaryRow β) → List (TableRow α) → List (MergedRow β α)
  | [], _ => []
  | b :: bs, table =>
    (match table.filter (fun t => t.id_col == b.geoid) with
      | [] => [⟨b.geoid, b.battrs, none, none⟩]
      | m :: ms => (m :: ms).map (fun t => ⟨b.geoid, b.battrs, some t.id_col, some t.tattrs⟩))
      ++ leftMerge bs table

/-- Effect trace entries for `merge_data_with_shapefile`: the two file loads,
the output-directory creation and the output write, in program order. -/
inductive Effect where
  | loadShapefile
  | loadData
  | mkdirOutput
  | writeOutput
deriving DecidableEq, Repr

/-- Model of `merge_data_with_shapefile` (src/clean_data.py lines 40-75).
Existence of the two input paths is passed in as booleans; the file contents
are passed as rows. Returns the raised error or the result triple
`(merged rows, matched_count, total)` together with the effect trace that
happened. The two existence checks precede every load, so a missing input
produces an empty trace. `astype(str)` on the shapefile `GEOID` column is the
identity here because the model keys are already strings; the data-side `ID`
column is normalized exactly as in line 56. `matched_count` is
`merged_gdf[data_id_column].notna().sum()` (line 65). -/
def merge_data_with_shapefile {β α : Type} (shapefileExists dataExists : Bool)
    (tracts : List (BoundaryRow β)) (data : List (TableRow α)) :
    Except String (List (MergedRow β α) × Nat × Nat) × List Effect :=
  if shapefileExists then
    if dataExists then
      let data' := data.map (fun t => TableRow.mk (normalize t.id_col) t.tattrs)
      let merged := leftMerge tracts data'
      let matched := (merged.filter (fun m => m.id_val.isSome)).length
      (Except.ok (merged, matched, merged.length),
        [Effect.loadShapefile, Effect.loadData, Effect.mkdirOutput, Effect.writeOutput])
    else (Except.error "Data file not found", [])
  else (Except.error "Shapefile not found", [])

/-! ## JSON values and Python dict access (src/get_data_from_api.py,
src/get_study_data.py)

`JVal` models a parsed JSON value: a scalar (string stand-in for any
non-object scalar) or an object given as an association list of fields.
`dictGet` is Python `d.get(k)` restricted to a dict receiver; `pyGetObjD` is
`v.get(k, {})` and `pyGet` is `v.get(k)` on a possibly non-dict receiver,
faulting (as Python raises `AttributeError`) when the receiver is not a
dict. `asMapping` is the `{**v}` unpacking, faulting (`TypeError`) on a
non-mapping. -/

inductive JVal where
  | scalar (s : String)
  | obj (fields : List (String × JVal))

def dictGet (fields : List (String × JVal)) (k : String) : Option JVal :=
  (fields.find? (fun p => p.1 == k)).map (fun p => p.2)

def pyGetObjD (v : JVal) (k : String) : Except String JVal :=
  match v with
  | JVal.obj fs => Except.ok ((dictGet fs k).getD (JVal.obj []))
  | JVal.scalar _ => Except.error "AttributeError"

def pyGet (v : JVal) (k : String) : Except String (Option JVal) :=
  match v with
  | JVal.obj fs => Except.ok (dictGet fs k)
  | JVal.scalar _ => Except.error "AttributeError"

def asMapping (v : JVal) : Except String (List (String × JVal)) :=
  match v with
  | JVal.obj fs => Except.ok fs
  | JVal.scalar _ => Except.error "TypeError"

/-- Python `dict` insertion/overwrite of one key. -/
def dictInsert (fs : List (String × JVal)) (k : String) (v : JVal) :
    List (String × JVal) :=
  if fs.any (fun p => p.1 == k) then
    fs.map (fun p => if p.1 == k then (k, v) else p)
  else fs ++ [(k, v)]

/-- Python `{**a, **b}`: start from `a` and insert every entry of `b` in
order, later entries overwriting earlier ones. -/
def dictUnion (a b : List (String × JVal)) : List (String × JVal) :=
  b.foldl (fun acc p => dictInsert acc p.1 p.2) a

/-- The sub-object accessor the specification describes: a missing or
non-object member is treated as the empty mapping. -/
def subObj (fs : List (String × JVal)) (k : String) : List (String × JVal) :=
  match dictGet fs k with
  | some (JVal.obj g) => g
  | _ => []

/-- Holds (is `true`) iff the member is absent or is an object — the shapes on which
Python's `.get(k, {})` chain does not raise. -/
def isObjOpt : Option JVal → Bool
  | some (JVal.scalar _) => false
  | _ => true

/-- Model of `extract_ejscreen_fields` (src/get_data_from_api.py lines 45-59):
`demographics = data.get("data", {}).get("demographics", {})`,
`main_stats = data.get("data", {}).get("main", {})`,
`extras = data.get("extras", {})`, then `{**demographics, **main_stats,
**extras}`. Dynamic faults (`.get` or `**` on a non-dict) surface as
`Except.error`, as the Python exceptions are not caught here. -/
def extract_ejscreen_fields (data : JVal) :
    Except String (List (String × JVal)) := do
  let d1 ← pyGetObjD data "data"
  let demographics ← pyGetObjD d1 "demographics"
  let d2 ← pyGetObjD data "data"
  let main_stats ← pyGetObjD d2 "main"
  let extras ← pyGetObjD data "extras"
  let dm ← asMapping demographics
  let mm ← asMapping main_stats
  let em ← asMapping extras
  Except.ok (dictUnion (dictUnion dm mm) em)

/-- Model of `fetch_ejscreen_data` (src/get_data_from_api.py lines 11-42). The HTTP
layer is an oracle: `Except.error e` is a `requests` exception (network
failure, timeout, or the non-2xx raised by `raise_for_status`), `Except.ok j`
a parsed JSON body. The function returns the optional body paired with the
stderr lines it printed; the except-clause catches every request exception,
prints the identifier with the error, and returns `None`. -/
def fetch_ejscreen_data (area_id : String) (http : Except String JVal) :
    Option JVal × List String :=
  match http with
  | Except.ok j => (some j, [])
  | Except.error e =>
    (none, ["Error fetching data for " ++ area_id ++ ": " ++ e])

/-- The flattened record built by `get_ejscreen_data`
(src/get_study_data.py lines 44-54): each field is the Python value of the
corresponding `.get` lookup, `none` standing for Python `None`. -/
structure FlattenedData where
  area_id : Option String
  total_population : Option JVal
  percent_minority : Option JVal
  per_capita_income : Option JVal
  unemployment_rate : Option JVal
  pm25_air_quality : Option JVal
  traffic_exposure : Option JVal
  diesel_particulate_matter : Option JVal
  life_expectancy : Option JVal

/-- Model of `get_ejscreen_data` (src/get_study_data.py lines 22-58). A request
exception is caught and yields `Except.ok none` (the function returns
`None`); a successful HTTP call extracts the three sub-objects and builds the
flattened row. Dynamic faults during extraction (`.get` on a non-dict) are
NOT request exceptions, so they escape the try/except: they surface as
`Except.error`. -/
def get_ejscreen_data (area_id : Option String) (http : Except String JVal) :
    Except String (Option FlattenedData) :=
  match http with
  | Except.error _ => Except.ok none
  | Except.ok data => do
    let d1 ← pyGetObjD data "data"
    let demographics ← pyGetObjD d1 "demographics"
    let d2 ← pyGetObjD data "data"
    let main_stats ← pyGetObjD d2 "main"
    let extras ← pyGetObjD data "extras"
    let total_population ← pyGet demographics "TOTALPOP"
    let percent_minority ← pyGet demographics "PCT_MINORITY"
    let per_capita_income ← pyGet demographics "PER_CAP_INC"
    let unemployment_rate ← pyGet demographics "P_EMP_STAT_UNEMPLOYED"
    let pm25_air_quality ← pyGet main_stats "RAW_E_PM25"
    let traffic_exposure ← pyGet main_stats "RAW_E_TRAFFIC"
    let diesel_particulate_matter ← pyGet main_stats "RAW_E_DIESEL"
    let life_expectancy ← pyGet extras "RAW_HI_LIFEEXP"
    Except.ok (some ⟨area_id, total_population, percent_minority,
      per_capita_income, unemployment_rate, pm25_air_quality,
      traffic_exposure, diesel_particulate_matter, life_expectancy⟩)

/-- Model of `fetch_multiple_block_groups` (src/get_study_data.py lines 96-137).
The per-identifier fetch (`get_ejscreen_data_bg`) is an oracle `fetch_bg`
returning `some record` on success and `none` on a failed fetch. The loop
appends each successful result to `data_list` and merely logs a failure; an
empty `data_list` takes the explicit `return pd.DataFrame()` branch. The
returned DataFrame is modelled by its list of rows. -/
def fetch_multiple_block_groups {ρ : Type} (block_group_ids : List String)
    (fetch_bg : String → Option ρ) : List ρ :=
  let data_list := block_group_ids.foldl
    (fun acc bg =>
      match fetch_bg bg with
      | some result => acc ++ [result]
      | none => acc) []
  if data_list.isEmpty then [] else data_list

/-- Model of `filter_dc_data` (src/start.py lines 21-66). The input CSV is its header
and data rows; `fileExists` is the upfront existence check. Reading with
`index_col=0` consumes the first column as the index, so `df.columns` is the
header without its first entry and each row's values are the row without its
first cell. Writing with `index=False` drops the index. Returns the written
header and rows, or the raised error. -/
def filter_dc_data (fileExists : Bool) (header : List String)
    (rows : List (List String)) (state_column state_value : String) :
    Except String (List String × List (List String)) :=
  if fileExists then
    let cols := header.drop 1
    if cols.contains state_column then
      let j := cols.findIdx (fun c => c == state_column)
      let filtered := rows.filter (fun r => ((r.drop 1).getD j "") == state_value)
      Except.ok (cols, filtered.map (fun r => r.drop 1))
    else Except.error ("Column not found: " ++ state_column)
  else Except.error "Input file not found"

/-- The one-output-row-per-boundary-row join the specification describes:
every boundary row contributes exactly one merged row, carrying the unique
matching table row when one exists and nulls otherwise. Stated against
`leftMerge` under a key-uniqueness hypothesis. -/
def specLeftJoin {β α : Type} (tracts : List (BoundaryRow β))
    (data : List (TableRow α)) : List (MergedRow β α) :=
  tracts.map (fun b =>
    match (data.map (fun t => TableRow.mk (normalize t.id_col) t.tattrs)).find?
        (fun t => t.id_col == b.geoid) with
    | none => ⟨b.geoid, b.battrs, none, none⟩
    | some t => ⟨b.geoid, b.battrs, some t.id_col, some t.tattrs⟩)


/-! ## Helper lemmas about the normalizer -/

theorem pySplit_ne_nil (sep : Char) (l : List Char) : pySplit sep l ≠ [] := by
  cases l with
  | nil => simp [pySplit]
  | cons c cs =>
    simp only [pySplit]
    cases pySplit sep cs with
    | nil => simp
    | cons r rs =>
      by_cases h : c = sep <;> simp [h]

theorem pySplit_headD (sep : Char) (l : List Char) :
    (pySplit sep l).headD [] = l.takeWhile (fun c => c != sep) := by
  induction l with
  | nil => rfl
  | cons c cs ih =>
    simp only [pySplit]
    cases hp : pySplit sep cs with
    | nil => exact absurd hp (pySplit_ne_nil sep cs)
    | cons r rs =>
      rw [hp] at ih
      simp only [List.headD_cons] at ih
      by_cases h : c = sep
      · simp [h, List.takeWhile_cons]
      · simp [h, List.takeWhile_cons, ih]

theorem takeWhile_ne_dot_append (l tail : List Char) (h : ∀ c ∈ l, c ≠ '.') :
    (l ++ '.' :: tail).takeWhile (fun c => c != '.') = l := by
  induction l with
  | nil => simp [List.takeWhile_cons]
  | cons c cs ih =>
    have hc : c ≠ '.' := h c (List.mem_cons_self c cs)
    simp only [List.cons_append, List.takeWhile_cons]
    simp [hc, ih (fun x hx => h x (List.mem_cons_of_mem c hx))]

theorem takeWhile_ne_dot_all (l : List Char) (h : ∀ c ∈ l, c ≠ '.') :
    l.takeWhile (fun c => c != '.') = l := by
  induction l with
  | nil => rfl
  | cons c cs ih =>
    have hc : c ≠ '.' := h c (List.mem_cons_self c cs)
    simp [List.takeWhile_cons, hc, ih (fun x hx => h x (List.mem_cons_of_mem c hx))]

/-- Claim C5: the table-side normalizer truncates the string form at the
first '.': for every string it returns the prefix before the first '.',
hence every `"<digits>.0"` serialization maps to `"<digits>"` and every
dot-free identifier is returned unchanged. -/
theorem normalize_truncates_at_dot :
    (∀ s : String, normalize s = String.mk (s.data.takeWhile (fun c => c != '.'))) ∧
    (∀ d : String, (∀ c ∈ d.data, c ≠ '.') → normalize (d ++ ".0") = d) ∧
    (∀ y : String, (∀ c ∈ y.data, c ≠ '.') → normalize y = y) := by
  refine ⟨fun s => ?_, fun d hd => ?_, fun y hy => ?_⟩
  · unfold normalize
    rw [pySplit_headD]
  · unfold normalize
    rw [pySplit_headD]
    have hdata : (d ++ ".0").data = d.data ++ '.' :: '0' :: [] := by
      rw [String.data_append]
    rw [hdata, takeWhile_ne_dot_append d.data ['0'] hd]
  · unfold normalize
    rw [pySplit_headD, takeWhile_ne_dot_all y.data hy]

theorem normalize_truncates_at_dot_witness :
    normalize ("110010074011" ++ ".0") = "110010074011" ∧ normalize "001" = "001" :=
  ⟨normalize_truncates_at_dot.2.1 "110010074011" (by decide),
   normalize_truncates_at_dot.2.2 "001" (by decide)⟩

/-! ## Helper lemmas about the batch collector -/

theorem foldl_collect_eq_filterMap {ρ : Type} (f : String → Option ρ) :
    ∀ (ids : List String) (acc : List ρ),
      ids.foldl (fun acc bg =>
        match f bg with
        | some r => acc ++ [r]
        | none => acc) acc = acc ++ ids.filterMap f
  | [], acc => by simp
  | i :: ids, acc => by
    simp only [List.foldl_cons, List.filterMap_cons]
    cases h : f i with
    | none => simp [h, foldl_collect_eq_filterMap f ids acc]
    | some r => simp [h, foldl_collect_eq_filterMap f ids (acc ++ [r])]

theorem fetch_multiple_eq_filterMap {ρ : Type} (ids : List String)
    (f : String → Option ρ) :
    fetch_multiple_block_groups ids f = ids.filterMap f := by
  unfold fetch_multiple_block_groups
  rw [foldl_collect_eq_filterMap f ids []]
  simp only [List.nil_append]
  by_cases h : ids.filterMap f = []
  · simp [h]
  · simp [h, List.isEmpty_iff]

/-- Claim C2: the batch collector returns exactly the records of the
successful fetches in input order (it is `filterMap` over the fetch oracle),
its result length never exceeds the input length, and over three identifiers
whose middle fetch fails it returns the first and third records in order. -/
theorem fetch_all_partial_failure {ρ : Type} :
    (∀ (ids : List String) (f : String → Option ρ),
        fetch_multiple_block_groups ids f = ids.filterMap f ∧
        (fetch_multiple_block_groups ids f).length ≤ ids.length) ∧
    (∀ (a b c : String) (ra rc : ρ) (f : String → Option ρ),
        f a = some ra → f b = none → f c = some rc →
        fetch_multiple_block_groups [a, b, c] f = [ra, rc]) := by
  constructor
  · intro ids f
    refine ⟨fetch_multiple_eq_filterMap ids f, ?_⟩
    rw [fetch_multiple_eq_filterMap ids f]
    exact List.length_filterMap_le f ids
  · intro a b c ra rc f ha hb hc
    rw [fetch_multiple_eq_filterMap]
    simp [ha, hb, hc]

theorem fetch_all_partial_failure_witness :
    fetch_multiple_block_groups ["110010074011", "110010074012", "110010074021"]
      (fun s => if s = "110010074012" then none else some s) =
      ["110010074011", "110010074021"] :=
  (@fetch_all_partial_failure String).2 "110010074011" "110010074012" "110010074021"
    "110010074011" "110010074021"
    (fun s => if s = "110010074012" then none else some s)
    (by decide) (by decide) (by decide)

/-- Claim C3 counterexample: a non-empty batch in which every fetch fails
returns the very same value as a batch over no identifiers at all — the two
states cannot be told apart from the result. -/
theorem fetch_all_failures_indistinguishable :
    fetch_multiple_block_groups ["110010074011", "110010074012"]
        (fun _ => (none : Option Nat)) =
      fetch_multiple_block_groups ([] : List String) (fun _ => (none : Option Nat)) := rfl

/-- Claim C3 amended: when every fetch fails the batch collector returns an
empty result, and that result is equal to — hence not distinguishable from —
the result of calling it on an empty input sequence. -/
theorem fetch_all_failures_empty {ρ : Type} (ids : List String)
    (f : String → Option ρ) (h : ∀ i ∈ ids, f i = none) :
    fetch_multiple_block_groups ids f = [] ∧
    fetch_multiple_block_groups ids f =
      fetch_multiple_block_groups ([] : List String) f := by
  have he : fetch_multiple_block_groups ids f = [] := by
    rw [fetch_multiple_eq_filterMap]
    exact List.filterMap_eq_nil_iff.mpr h
  exact ⟨he, by rw [he]; rfl⟩

theorem fetch_all_failures_empty_witness :
    fetch_multiple_block_groups ["110010074011"] (fun _ => (none : Option Nat)) = [] ∧
    fetch_multiple_block_groups ["110010074011"] (fun _ => (none : Option Nat)) =
      fetch_multiple_block_groups ([] : List String) (fun _ => (none : Option Nat)) :=
  fetch_all_failures_empty ["110010074011"] (fun _ => none) (fun _ _ => rfl)

/-- Claim C6: on any network-layer error or non-success status (both modelled
as `Except.error` from the request layer, as both raise request exceptions)
the fetch returns the failure value `none` together with a diagnostic line
carrying the identifier and the underlying error, and on every request
outcome it returns normally — no exception crosses the fetch boundary. -/
theorem fetch_ejscreen_data_failure_boundary :
    (∀ (aid e : String), fetch_ejscreen_data aid (Except.error e) =
        (none, ["Error fetching data for " ++ aid ++ ": " ++ e])) ∧
    (∀ (aid : String) (j : JVal),
        fetch_ejscreen_data aid (Except.ok j) = (some j, [])) :=
  ⟨fun _ _ => rfl, fun _ _ => rfl⟩


/-! ## Helper lemmas about the left join -/

theorem filter_eq_of_nodup_keys {α : Type} (k : String) :
    ∀ (table : List (TableRow α)),
      (table.map (fun t => t.id_col)).Nodup →
      table.filter (fun t => t.id_col == k) =
        (match table.find? (fun t => t.id_col == k) with
          | none => []
          | some t => [t])
  | [], _ => rfl
  | t :: ts, h => by
    simp only [List.map_cons, List.nodup_cons] at h
    obtain ⟨hmem, hnd⟩ := h
    by_cases ht : t.id_col = k
    · have hfilter_ts : ts.filter (fun x => x.id_col == k) = [] := by
        rw [List.filter_eq_nil_iff]
        intro x hx
        simp only [beq_iff_eq]
        intro hxk
        apply hmem
        have hm : x.id_col ∈ ts.map (fun t => t.id_col) :=
          List.mem_map_of_mem (fun t => t.id_col) hx
        rwa [hxk, ← ht] at hm
      simp [List.filter_cons, List.find?_cons, ht, hfilter_ts]
    · simp [List.filter_cons, List.find?_cons, ht,
        filter_eq_of_nodup_keys k ts hnd]

theorem leftMerge_eq_map_of_nodup {β α : Type} (table : List (TableRow α))
    (htable : (table.map (fun t => t.id_col)).Nodup) :
    ∀ (boundaries : List (BoundaryRow β)),
      leftMerge boundaries table = boundaries.map (fun b =>
        match table.find? (fun t => t.id_col == b.geoid) with
        | none => ⟨b.geoid, b.battrs, none, none⟩
        | some t => ⟨b.geoid, b.battrs, some t.id_col, some t.tattrs⟩)
  | [] => rfl
  | b :: bs => by
    simp only [leftMerge, List.map_cons]
    rw [filter_eq_of_nodup_keys b.geoid table htable]
    cases table.find? (fun t => t.id_col == b.geoid) with
    | none => simp [leftMerge_eq_map_of_nodup table htable bs]
    | some t => simp [leftMerge_eq_map_of_nodup table htable bs]

/-- Claim C1: when the normalized table keys are pairwise distinct, the merge
output has exactly one row per boundary row in boundary order — the left join
never drops and never duplicates a boundary row — and each unmatched boundary
row appears once with nulls in the table-sourced columns; in particular the
reported total equals the boundary row count. -/
theorem merge_left_join_cardinality {β α : Type} (tracts : List (BoundaryRow β))
    (data : List (TableRow α))
    (h : (data.map (fun t => normalize t.id_col)).Nodup) :
    merge_data_with_shapefile true true tracts data =
      (Except.ok (specLeftJoin tracts data,
        ((specLeftJoin tracts data).filter (fun m => m.id_val.isSome)).length,
        tracts.length),
      [Effect.loadShapefile, Effect.loadData, Effect.mkdirOutput, Effect.writeOutput]) := by
  have hkeys : ((data.map (fun t => TableRow.mk (normalize t.id_col) t.tattrs)).map
      (fun t => t.id_col)).Nodup := by
    simpa [List.map_map, Function.comp] using h
  have hmap := leftMerge_eq_map_of_nodup
    (data.map (fun t => TableRow.mk (normalize t.id_col) t.tattrs)) hkeys tracts
  simp only [merge_data_with_shapefile, if_true]
  rw [hmap]
  simp [specLeftJoin]

theorem merge_left_join_cardinality_witness :
    merge_data_with_shapefile true true
        ([⟨"001", "g1"⟩, ⟨"002", "g2"⟩] : List (BoundaryRow String))
        ([⟨"001.0", "A"⟩] : List (TableRow String)) =
      (Except.ok (specLeftJoin [⟨"001", "g1"⟩, ⟨"002", "g2"⟩] [⟨"001.0", "A"⟩],
        ((specLeftJoin ([⟨"001", "g1"⟩, ⟨"002", "g2"⟩] : List (BoundaryRow String))
            ([⟨"001.0", "A"⟩] : List (TableRow String))).filter
          (fun m => m.id_val.isSome)).length, 2),
      [Effect.loadShapefile, Effect.loadData, Effect.mkdirOutput, Effect.writeOutput]) :=
  merge_left_join_cardinality _ _ (by decide)

/-- Claim C4: on boundary keys 001, 002, 003 and a table keyed 001.0 with
row A and 003.0 with row C, the merge yields exactly three rows — 001 joined
to A, 002 with nulls, 003 joined to C — and reports matched_count 2 out of a
total of 3. -/
theorem merge_end_to_end_example :
    merge_data_with_shapefile true true
        ([⟨"001", "g1"⟩, ⟨"002", "g2"⟩, ⟨"003", "g3"⟩] : List (BoundaryRow String))
        ([⟨"001.0", "A"⟩, ⟨"003.0", "C"⟩] : List (TableRow String)) =
      (Except.ok ([⟨"001", "g1", some "001", some "A"⟩,
                   ⟨"002", "g2", none, none⟩,
                   ⟨"003", "g3", some "003", some "C"⟩], 2, 3),
       [Effect.loadShapefile, Effect.loadData, Effect.mkdirOutput, Effect.writeOutput]) := rfl

/-- Claim C7: when either input path is missing, the merge raises the
file-not-found error and its effect trace is empty — no file is loaded, no
output directory is created, no output is written. -/
theorem merge_missing_input_no_effects {β α : Type} (se de : Bool)
    (tracts : List (BoundaryRow β)) (data : List (TableRow α))
    (h : se = false ∨ de = false) :
    (∃ msg, (merge_data_with_shapefile se de tracts data).1 = Except.error msg) ∧
    (merge_data_with_shapefile se de tracts data).2 = [] := by
  rcases h with h | h
  · subst h
    exact ⟨⟨"Shapefile not found", rfl⟩, rfl⟩
  · subst h
    cases se
    · exact ⟨⟨"Shapefile not found", rfl⟩, rfl⟩
    · exact ⟨⟨"Data file not found", rfl⟩, rfl⟩

theorem merge_missing_input_no_effects_witness :
    (∃ msg, (merge_data_with_shapefile false true ([] : List (BoundaryRow String))
        ([] : List (TableRow String))).1 = Except.error msg) ∧
    (merge_data_with_shapefile false true ([] : List (BoundaryRow String))
        ([] : List (TableRow String))).2 = [] :=
  merge_missing_input_no_effects false true [] [] (Or.inl rfl)


/-! ## Helper lemmas about Python dict access -/

theorem except_bind_ok {ε α β : Type} (a : α) (f : α → Except ε β) :
    (Except.ok a >>= f : Except ε β) = f a := rfl

theorem pyGetObjD_of_isObjOpt (fs : List (String × JVal)) (k : String)
    (h : isObjOpt (dictGet fs k) = true) :
    pyGetObjD (JVal.obj fs) k = Except.ok (JVal.obj (subObj fs k)) := by
  have hred : pyGetObjD (JVal.obj fs) k =
      Except.ok ((dictGet fs k).getD (JVal.obj [])) := rfl
  rw [hred]
  unfold subObj
  cases hd : dictGet fs k with
  | none => rfl
  | some v =>
    cases v with
    | obj g => rfl
    | scalar s => rw [hd] at h; simp [isObjOpt] at h

/-- Claim C8 counterexample: a successfully parsed JSON object in which the
`data` member is present but is a scalar makes the extraction raise (Python
`AttributeError` on `.get`), which escapes the request-exception handler: no
record row is produced even though the HTTP call succeeded. -/
theorem get_ejscreen_data_not_total_cx :
    get_ejscreen_data (some "110010074011")
        (Except.ok (JVal.obj [("data", JVal.scalar "5")])) =
      Except.error "AttributeError" := rfl

/-- Claim C8 amended: for every parsed response object whose `data`,
`demographics`, `main` and `extras` members, where present, are objects,
field extraction is total: a missing sub-object is treated as an empty
mapping, any absent indicator key yields the `none` sentinel, and a record
row is always produced. -/
theorem get_ejscreen_data_total_on_shaped (aid : Option String)
    (fs : List (String × JVal))
    (h1 : isObjOpt (dictGet fs "data") = true)
    (h2 : isObjOpt (dictGet (subObj fs "data") "demographics") = true)
    (h3 : isObjOpt (dictGet (subObj fs "data") "main") = true)
    (h4 : isObjOpt (dictGet fs "extras") = true) :
    get_ejscreen_data aid (Except.ok (JVal.obj fs)) =
      Except.ok (some {
        area_id := aid
        total_population :=
          dictGet (subObj (subObj fs "data") "demographics") "TOTALPOP"
        percent_minority :=
          dictGet (subObj (subObj fs "data") "demographics") "PCT_MINORITY"
        per_capita_income :=
          dictGet (subObj (subObj fs "data") "demographics") "PER_CAP_INC"
        unemployment_rate :=
          dictGet (subObj (subObj fs "data") "demographics") "P_EMP_STAT_UNEMPLOYED"
        pm25_air_quality :=
          dictGet (subObj (subObj fs "data") "main") "RAW_E_PM25"
        traffic_exposure :=
          dictGet (subObj (subObj fs "data") "main") "RAW_E_TRAFFIC"
        diesel_particulate_matter :=
          dictGet (subObj (subObj fs "data") "main") "RAW_E_DIESEL"
        life_expectancy :=
          dictGet (subObj fs "extras") "RAW_HI_LIFEEXP" }) := by
  simp only [get_ejscreen_data]
  rw [pyGetObjD_of_isObjOpt fs "data" h1, except_bind_ok]
  rw [pyGetObjD_of_isObjOpt (subObj fs "data") "demographics" h2, except_bind_ok,
    except_bind_ok]
  rw [pyGetObjD_of_isObjOpt (subObj fs "data") "main" h3, except_bind_ok]
  rw [pyGetObjD_of_isObjOpt fs "extras" h4, except_bind_ok]
  rfl

theorem get_ejscreen_data_total_on_shaped_witness :
    get_ejscreen_data (some "110010074011")
        (Except.ok (JVal.obj [("data",
          JVal.obj [("demographics", JVal.obj [("TOTALPOP", JVal.scalar "100")])])])) =
      Except.ok (some {
        area_id := some "110010074011"
        total_population := some (JVal.scalar "100")
        percent_minority := none
        per_capita_income := none
        unemployment_rate := none
        pm25_air_quality := none
        traffic_exposure := none
        diesel_particulate_matter := none
        life_expectancy := none }) :=
  get_ejscreen_data_total_on_shaped (some "110010074011")
    [("data", JVal.obj [("demographics", JVal.obj [("TOTALPOP", JVal.scalar "100")])])]
    rfl rfl rfl rfl


theorem dictGet_cons (p : String × JVal) (ps : List (String × JVal)) (q : String) :
    dictGet (p :: ps) q = if p.1 = q then some p.2 else dictGet ps q := by
  by_cases h : p.1 = q <;> simp [dictGet, List.find?_cons, h]

theorem dictGet_eq_none_of_not_any (fs : List (String × JVal)) (k : String)
    (h : fs.any (fun p => p.1 == k) = false) : dictGet fs k = none := by
  induction fs with
  | nil => rfl
  | cons p ps ih =>
    simp only [List.any_cons, Bool.or_eq_false_iff] at h
    have hp : ¬(p.1 = k) := by simpa using h.1
    simp [dictGet_cons, hp, ih h.2]

theorem dictGet_eq_none_of_not_mem (fs : List (String × JVal)) (k : String)
    (h : k ∉ fs.map Prod.fst) : dictGet fs k = none := by
  induction fs with
  | nil => rfl
  | cons p ps ih =>
    simp only [List.map_cons, List.mem_cons, not_or] at h
    have hp : ¬(p.1 = k) := fun hk => h.1 hk.symm
    simp [dictGet_cons, hp, ih h.2]

theorem dictGet_append_single (fs : List (String × JVal)) (k q : String) (v : JVal) :
    dictGet (fs ++ [(k, v)]) q =
      (match dictGet fs q with
        | some w => some w
        | none => if k = q then some v else none) := by
  induction fs with
  | nil =>
    simp only [List.nil_append]
    by_cases hk : k = q <;> simp [dictGet_cons, dictGet, hk]
  | cons p ps ih =>
    by_cases hp : p.1 = q <;> simp [List.cons_append, dictGet_cons, hp, ih]

theorem dictGet_overwrite_map (fs : List (String × JVal)) (k q : String) (v : JVal) :
    dictGet (fs.map (fun p => if p.1 == k then (k, v) else p)) q =
      (if q = k then (if fs.any (fun p => p.1 == k) then some v else none)
        else dictGet fs q) := by
  induction fs with
  | nil => by_cases hq : q = k <;> simp [dictGet, hq]
  | cons p ps ih =>
    simp only [List.map_cons, List.any_cons]
    by_cases hq : q = k
    · rw [if_pos hq]
      by_cases hp : p.1 = k
      · have hb : (p.1 == k) = true := by simp [hp]
        rw [if_pos hb, dictGet_cons, if_pos hq.symm,
          if_pos (by simp [hp] : (p.1 == k || ps.any fun p => p.1 == k) = true)]
      · have hbf : (p.1 == k) = false := by simp [hp]
        rw [if_neg (by simp [hp] : ¬(p.1 == k) = true), dictGet_cons,
          if_neg (fun h : p.1 = q => hp (h.trans hq)), ih, if_pos hq]
        have hcond : (p.1 == k || ps.any fun p => p.1 == k) =
            (ps.any fun p => p.1 == k) := by
          rw [hbf, Bool.false_or]
        simp only [hcond]
    · rw [if_neg hq]
      have hkq : ¬k = q := fun h => hq h.symm
      by_cases hp : p.1 = k
      · have hb : (p.1 == k) = true := by simp [hp]
        have hpq : ¬p.1 = q := by rw [hp]; exact hkq
        rw [if_pos hb, dictGet_cons, if_neg hkq, ih, if_neg hq, dictGet_cons,
          if_neg hpq]
      · rw [if_neg (by simp [hp] : ¬(p.1 == k) = true), dictGet_cons, ih,
          if_neg hq, dictGet_cons]

theorem dictGet_dictInsert (fs : List (String × JVal)) (k q : String) (v : JVal) :
    dictGet (dictInsert fs k v) q = if q = k then some v else dictGet fs q := by
  unfold dictInsert
  by_cases hany : fs.any (fun p => p.1 == k) = true
  · rw [if_pos hany, dictGet_overwrite_map]
    by_cases hq : q = k <;> simp [hq, hany]
  · have hany' : fs.any (fun p => p.1 == k) = false := by
      cases h : fs.any (fun p => p.1 == k) with
      | false => rfl
      | true => exact absurd h hany
    rw [if_neg hany, dictGet_append_single]
    by_cases hq : q = k
    · subst hq
      rw [dictGet_eq_none_of_not_any fs q hany']
    · have hkq : ¬k = q := fun h => hq h.symm
      cases hd : dictGet fs q with
      | none => simp [hq, hkq]
      | some w => simp [hq]

theorem dictGet_dictUnion (b : List (String × JVal)) :
    ∀ (a : List (String × JVal)) (q : String),
      (b.map Prod.fst).Nodup →
      dictGet (dictUnion a b) q =
        (match dictGet b q with
          | some w => some w
          | none => dictGet a q)
  | a, q, h => by
    induction b generalizing a with
    | nil => simp [dictUnion, dictGet]
    | cons p ps ih =>
      simp only [List.map_cons, List.nodup_cons] at h
      obtain ⟨hmem, hnd⟩ := h
      have hstep : dictUnion a (p :: ps) = dictUnion (dictInsert a p.1 p.2) ps := rfl
      rw [hstep, ih (dictInsert a p.1 p.2) hnd, dictGet_cons]
      by_cases hq : p.1 = q
      · have hps : dictGet ps q = none := by
          apply dictGet_eq_none_of_not_mem
          rw [← hq]
          exact hmem
        rw [hps, if_pos hq, dictGet_dictInsert, if_pos hq.symm]
      · have hqp : ¬q = p.1 := fun h => hq h.symm
        rw [if_neg hq]
        cases hd : dictGet ps q with
        | none => rw [dictGet_dictInsert, if_neg hqp]
        | some w => rfl

/-- Claim C9 counterexample: a response whose `extras` member is a scalar
makes the flattening `{**demographics, **main_stats, **extras}` raise
(Python `TypeError`), so the function does not return a key-wise union for
every response object. -/
theorem extract_fields_not_union_cx :
    extract_ejscreen_fields (JVal.obj [("extras", JVal.scalar "5")]) =
      Except.error "TypeError" := rfl

/-- Claim C9 amended: for every response object whose `data`, `demographics`,
`main` and `extras` members, where present, are objects with pairwise
distinct keys on the `main` and `extras` sides (the Python dict invariant),
`extract_ejscreen_fields` returns the key-wise union of the three
sub-objects, a key in `extras` overriding the same key in `main`, which
overrides the same key in `demographics`. -/
theorem extract_fields_union_precedence (fs : List (String × JVal)) (q : String)
    (h1 : isObjOpt (dictGet fs "data") = true)
    (h2 : isObjOpt (dictGet (subObj fs "data") "demographics") = true)
    (h3 : isObjOpt (dictGet (subObj fs "data") "main") = true)
    (h4 : isObjOpt (dictGet fs "extras") = true)
    (hm : ((subObj (subObj fs "data") "main").map Prod.fst).Nodup)
    (he : ((subObj fs "extras").map Prod.fst).Nodup) :
    extract_ejscreen_fields (JVal.obj fs) =
      Except.ok (dictUnion (dictUnion (subObj (subObj fs "data") "demographics")
        (subObj (subObj fs "data") "main")) (subObj fs "extras")) ∧
    dictGet (dictUnion (dictUnion (subObj (subObj fs "data") "demographics")
        (subObj (subObj fs "data") "main")) (subObj fs "extras")) q =
      ((dictGet (subObj fs "extras") q).orElse (fun _ =>
        (dictGet (subObj (subObj fs "data") "main") q).orElse (fun _ =>
          dictGet (subObj (subObj fs "data") "demographics") q))) := by
  constructor
  · simp only [extract_ejscreen_fields]
    rw [pyGetObjD_of_isObjOpt fs "data" h1, except_bind_ok]
    rw [pyGetObjD_of_isObjOpt (subObj fs "data") "demographics" h2, except_bind_ok,
      except_bind_ok]
    rw [pyGetObjD_of_isObjOpt (subObj fs "data") "main" h3, except_bind_ok]
    rw [pyGetObjD_of_isObjOpt fs "extras" h4, except_bind_ok]
    rfl
  · rw [dictGet_dictUnion (subObj fs "extras") _ q he,
      dictGet_dictUnion (subObj (subObj fs "data") "main") _ q hm]
    cases dictGet (subObj fs "extras") q <;>
      cases dictGet (subObj (subObj fs "data") "main") q <;>
        simp [Option.orElse]

theorem extract_fields_union_precedence_witness :
    extract_ejscreen_fields (JVal.obj
        [("data", JVal.obj
          [("demographics", JVal.obj [("K", JVal.scalar "from_demographics")]),
            ("main", JVal.obj [("K", JVal.scalar "from_main")])]),
          ("extras", JVal.obj [("K", JVal.scalar "from_extras")])]) =
      Except.ok [("K", JVal.scalar "from_extras")] ∧
    dictGet [("K", JVal.scalar "from_extras")] "K" =
      some (JVal.scalar "from_extras") :=
  extract_fields_union_precedence
    [("data", JVal.obj
      [("demographics", JVal.obj [("K", JVal.scalar "from_demographics")]),
        ("main", JVal.obj [("K", JVal.scalar "from_main")])]),
      ("extras", JVal.obj [("K", JVal.scalar "from_extras")])]
    "K" rfl rfl rfl rfl (by decide) (by decide)

/-- Claim C10: reading with the first column as index and writing without the
index makes the output columns exactly the input columns minus the first, and
every written row is its input row without the first cell; when the named
state column is the file's first column (and is not repeated later), the
filter fails with the column-absent error even though the column is present
in the file. -/
theorem filter_dc_drops_first_column :
    (∀ (header : List String) (rows : List (List String)) (sc sv : String)
        (cols : List String) (rowsOut : List (List String)),
        filter_dc_data true header rows sc sv = Except.ok (cols, rowsOut) →
        cols = header.drop 1 ∧
        rowsOut = (rows.filter (fun r =>
          ((r.drop 1).getD ((header.drop 1).findIdx (fun c => c == sc)) "") == sv)).map
            (fun r => r.drop 1)) ∧
    (∀ (sc : String) (rest : List String) (rows : List (List String)) (sv : String),
        sc ∉ rest →
        filter_dc_data true (sc :: rest) rows sc sv =
          Except.error ("Column not found: " ++ sc)) := by
  constructor
  · intro header rows sc sv cols rowsOut hok
    simp only [filter_dc_data, if_true] at hok
    split at hok
    · simp only [Except.ok.injEq, Prod.mk.injEq] at hok
      exact ⟨hok.1.symm, hok.2.symm⟩
    · exact absurd hok (by simp)
  · intro sc rest rows sv hmem
    simp [filter_dc_data, hmem]

theorem filter_dc_drops_first_column_witness :
    filter_dc_data true ["ST_ABBREV", "REGION"] [["DC", "SE"]] "ST_ABBREV" "DC" =
      Except.error ("Column not found: " ++ "ST_ABBREV") :=
  filter_dc_drops_first_column.2 "ST_ABBREV" ["REGION"] [["DC", "SE"]] "DC" (by decide)

end DCStudy
